import Mathlib

/-! git-send-nostr: publishing a signed patch event to a set of relays.

A shallow embedding of `cmd/git-send-nostr/send.go` (`send`, `publishAll`,
`publish`, `mkEvent`).  Everything the file calls but does not define (the
`internal/git` helpers, the go-nostr relay client, `nip19.EncodeEvent`, the
clock, the goroutine schedule) is an explicit parameter, so every theorem
holds for every behaviour of those collaborators.  The one fact about the relay
client that some theorems assume is stated as `RejectsEmptyURL`: connecting to
the empty address fails.
-/

namespace GitSendNostr

/-! ## Go values -/

/-- Go `error` values: a leaf made from a message alone, or the result of
`fmt.Errorf` with a `%w` verb, which keeps the wrapped error next to the
formatted text. -/
inductive GoError where
  | leaf (msg : String)
  | wrap (msg : String) (inner : GoError)
  deriving DecidableEq, Repr

/-- The `Error()` text of an error value. -/
def GoError.Error : GoError → String
  | .leaf m => m
  | .wrap m _ => m

/-- The errors reachable through `Unwrap()`, the error itself first. -/
def GoError.chain : GoError → List GoError
  | .leaf m => [.leaf m]
  | .wrap m e => .wrap m e :: e.chain

/-- `fmt.Errorf(text ++ "%w", err)`: every wrapping format string of `send.go`
ends in its `%w` verb. -/
def errorfW (text : String) (err : GoError) : GoError :=
  .wrap (text ++ err.Error) err

/-- The go-nostr publish status (a library type; `publish` only prints it). -/
inductive Status where
  | PublishStatusSent
  | PublishStatusFailed
  | PublishStatusSucceeded
  deriving DecidableEq, Repr

/-- The `%v` rendering of a status. -/
def Status.String : Status → String
  | .PublishStatusSent => "sent"
  | .PublishStatusFailed => "failed"
  | .PublishStatusSucceeded => "success"

/-- The fields of `nostr.Event`; a `nostr.Tag` is a slice of strings. -/
structure Event where
  ID : String
  PubKey : String
  CreatedAt : Nat
  Kind : Nat
  Tags : List (List String)
  Content : String
  Sig : String
  deriving DecidableEq, Repr

/-- A connected relay handle, as returned by `nostr.RelayConnect`. -/
structure RelayConn where
  URL : String
  deriving DecidableEq, Repr

/-- What the relay client does for one `publish` invocation: the result of
`nostr.RelayConnect(ctx, relay)` and of `conn.Publish(conn.ConnectionContext, evt)`.
Timeouts and network faults are outcomes of these two calls. -/
structure Net where
  RelayConnect : String → Except GoError RelayConn
  Publish : RelayConn → Event → Status × Option GoError

/-- The connection-level steps one `publish` call performs. `closed` is the
client's `Close()`; `cancelled` is the deferred `cancel()` of the connect
context. -/
inductive ConnEffect where
  | opened (c : RelayConn)
  | published (c : RelayConn)
  | closed (c : RelayConn)
  | cancelled
  deriving DecidableEq, Repr

/-- Number of connections opened in a list of steps. -/
def opens (fx : List ConnEffect) : Nat :=
  fx.countP fun e => match e with
    | .opened _ => true
    | _ => false

/-- Number of connections closed in a list of steps. -/
def closes (fx : List ConnEffect) : Nat :=
  fx.countP fun e => match e with
    | .closed _ => true
    | _ => false

/-! ## publish -/

/-- The steps of `publish`, in program order: `RelayConnect`, then on success
`conn.Publish`, and the deferred `cancel()` on every return. -/
def publishEffects (net : Net) (relay : String) (_evt : Event) : List ConnEffect :=
  match net.RelayConnect relay with
  | .error _ => [.cancelled]
  | .ok conn => [.opened conn, .published conn, .cancelled]

/-- The error returned by `publish(relay, evt)`; `none` is Go's `nil`. -/
def publish (net : Net) (relay : String) (evt : Event) : Option GoError :=
  match net.RelayConnect relay with
  | .error err => some (errorfW ("error connecting to relay " ++ relay ++ ": ") err)
  | .ok conn =>
    match net.Publish conn evt with
    | (status, some err) =>
      some (errorfW
        ("error publishing (relay=" ++ relay ++ ";status=" ++ status.String ++ "): ") err)
    | (_, none) => none

/-! ## publishAll -/

/-- What one goroutine of `parallel.Map` does in `publishAll`: the string it
returns, the line it hands to `log.Println` (if any), and the connection steps
of its `publish` call. -/
structure Attempt where
  value : String
  warning : Option String
  effects : List ConnEffect
  deriving DecidableEq, Repr

/-- The function `publishAll` maps over the relays. The index is ignored by the
code; here it selects the network behaviour this invocation meets, so that two
entries with the same address may meet different outcomes. -/
def publishOne (net : Nat → Net) (evt : Event) (r : String) (i : Nat) : Attempt :=
  match publish (net i) r evt with
  | some err =>
    { value := "", warning := some (errorfW "warning: " err).Error,
      effects := publishEffects (net i) r evt }
  | none => { value := r, warning := none, effects := publishEffects (net i) r evt }

/-- Indexed map starting at index `i`. -/
def mapFrom {α β : Type} (f : α → Nat → β) : Nat → List α → List β
  | _, [] => []
  | i, x :: xs => f x i :: mapFrom f (i + 1) xs

/-- The slice `parallel.Map` returns: slot `i` holds `f(xs[i], i)`; the call
returns once every goroutine is done. -/
def parallelMap {α β : Type} (xs : List α) (f : α → Nat → β) : List β :=
  mapFrom f 0 xs

/-- The function `lo.Compact` on strings: drop the zero value, keep the order. -/
def Compact (xs : List String) : List String :=
  xs.filter fun s => s != ""

/-- One `Attempt` per entry of `relays`, in slice order. -/
def publishAllAttempts (net : Nat → Net) (relays : List String) (evt : Event) :
    List Attempt :=
  parallelMap relays (publishOne net evt)

/-- The slice returned by `publishAll(relays, evt)`. -/
def publishAll (net : Nat → Net) (relays : List String) (evt : Event) : List String :=
  Compact ((publishAllAttempts net relays evt).map Attempt.value)

/-- The lines `publishAll` logs. The goroutines run concurrently, so the order
of the lines is the order in which they reach `log.Println`: `order` lists the
goroutine indices in that order. -/
def publishAllLog (net : Nat → Net) (order : List Nat) (relays : List String)
    (evt : Event) : List String :=
  order.filterMap fun i =>
    ((publishAllAttempts net relays evt).get? i).bind Attempt.warning

/-! ## mkEvent and send -/

/-- The collaborators of `send`: the `internal/git` helpers, the clock, the
event methods of go-nostr, `nip19.EncodeEvent`, the relay client met by each
`publish` invocation, and the order in which the goroutines log. -/
structure Env where
  gitRun : List String → String × Option GoError
  ExtractAuthorSubject : String → Except GoError (String × String)
  GetRelays : List String → Except GoError (List String)
  GetSecKey : String → Except GoError String
  now : Nat
  Sign : Event → String → Except GoError Event
  MarshalJSON : Event → String
  GetID : Event → String
  EncodeEvent : String → List String → String → Except GoError String
  net : Nat → Net
  order : List Nat

/-- The event kind used for patches. -/
def kind : Nat := 19691228

/-- The function `mkEvent(content, author, subject)`. -/
def mkEvent (env : Env) (content author subject : String) : Event :=
  let hashtag := (env.gitRun ["config", "nostr.hashtag"]).1
  let tags : List (List String) := [["author", author], ["subject", subject]]
  let tags := if hashtag != "" then tags ++ [["t", hashtag]] else tags
  { ID := "", PubKey := "", CreatedAt := env.now, Kind := kind, Tags := tags,
    Content := content, Sig := "" }

/-- A call of `nip19.EncodeEvent(id, relays, author)`. -/
structure EncodeCall where
  id : String
  relays : List String
  author : String
  deriving DecidableEq, Repr

/-- What a run of `send` yields: the two return values, and its observable
effects (lines printed, lines logged, the `publish` invocations made, the
calls of `nip19.EncodeEvent`). -/
structure SendResult where
  out : String
  err : Option GoError
  stdout : List String
  log : List String
  attempts : List Attempt
  encodeCalls : List EncodeCall
  deriving DecidableEq, Repr

/-- A return of `("", err)` before anything was published. -/
def failEarly (err : GoError) : SendResult :=
  { out := "", err := some err, stdout := [], log := [], attempts := [], encodeCalls := [] }

/-- The error of `send` when `publishAll` returns an empty slice. -/
def errNoRelays : GoError := .leaf "failed to publish to any relays"

/-- Lines 53 to 62 of `send`: publish to all relays, then encode the reference. -/
def sendPublish (env : Env) (relays : List String) (evt : Event) : SendResult :=
  let goodRelays := publishAll env.net relays evt
  let log := publishAllLog env.net env.order relays evt
  let attempts := publishAllAttempts env.net relays evt
  if goodRelays.length = 0 then
    { out := "", err := some errNoRelays, stdout := [], log := log, attempts := attempts,
      encodeCalls := [] }
  else
    let call : EncodeCall := { id := env.GetID evt, relays := goodRelays, author := evt.PubKey }
    match env.EncodeEvent (env.GetID evt) goodRelays evt.PubKey with
    | .error err =>
      { out := "",
        err := some (errorfW
          ("event published as " ++ evt.ID ++ ", but failed to encode event ") err),
        stdout := [], log := log, attempts := attempts, encodeCalls := [call] }
    | .ok evtOut =>
      { out := evtOut, err := none, stdout := [], log := log, attempts := attempts,
        encodeCalls := [call] }

/-- The function `send(hash, relays, sec, dryRun)`. -/
def send (env : Env) (hash : String) (relays : List String) (sec : String)
    (dryRun : Bool) : SendResult :=
  match env.gitRun ["format-patch", "--stdout", hash] with
  | (_, some err) => failEarly (errorfW "error getting patch: " err)
  | (patch, none) =>
    match env.ExtractAuthorSubject patch with
    | .error err => failEarly err
    | .ok (author, subject) =>
      match env.GetRelays relays with
      | .error err => failEarly err
      | .ok relays =>
        match env.GetSecKey sec with
        | .error err => failEarly err
        | .ok sec =>
          match env.Sign (mkEvent env patch author subject) sec with
          | .error err => failEarly (errorfW "error signing message: " err)
          | .ok evt =>
            if dryRun then
              { out := "", err := none, stdout := [env.MarshalJSON evt ++ "\n"],
                log := ["this was a dry run"], attempts := [], encodeCalls := [] }
            else
              sendPublish env relays evt

/-- The steps of `send` before the dry-run test all succeed, leaving the relay
list `rs` and the signed event `evt`. -/
def ReachesPublish (env : Env) (hash : String) (relays : List String) (sec : String)
    (rs : List String) (evt : Event) : Prop :=
  ∃ patch author subject key,
    env.gitRun ["format-patch", "--stdout", hash] = (patch, none) ∧
    env.ExtractAuthorSubject patch = .ok (author, subject) ∧
    env.GetRelays relays = .ok rs ∧
    env.GetSecKey sec = .ok key ∧
    env.Sign (mkEvent env patch author subject) key = .ok evt

/-! ## Concrete collaborators used in the examples -/

/-- A relay client whose connect succeeds exactly on the addresses in `up`, and
whose publish is then acknowledged. -/
def netUp (up : List String) : Net :=
  { RelayConnect := fun r =>
      if r ∈ up then .ok { URL := r } else .error (.leaf "connection refused"),
    Publish := fun _ _ => (.PublishStatusSucceeded, none) }

/-- A relay client that connects to every address but the empty one, which it
refuses as the go-nostr client does, and whose publish returns the given result. -/
def netReply (status : Status) (err : Option GoError) : Net :=
  { RelayConnect := fun r =>
      if r = "" then .error (.leaf "invalid relay URL") else .ok { URL := r },
    Publish := fun _ _ => (status, err) }

/-- A relay client whose connect always fails with the given reason. -/
def netDown (reason : String) : Net :=
  { RelayConnect := fun _ => .error (.leaf reason),
    Publish := fun _ _ => (.PublishStatusFailed, some (.leaf reason)) }

/-- The signed event of the examples: what `Sign` of `sampleEnv` returns. -/
def sampleEvent : Event :=
  { ID := "id0", PubKey := "pk0", CreatedAt := 0, Kind := kind,
    Tags := [["author", "a"], ["subject", "s"]], Content := "patch", Sig := "sig0" }

/-- An environment in which every step before publishing succeeds, the relay
list is `rs`, every invocation meets `net`, and the goroutines log in `order`. -/
def sampleEnv (rs : List String) (net : Nat → Net) (order : List Nat) : Env :=
  { gitRun := fun args => if args = ["config", "nostr.hashtag"] then ("", none) else ("patch", none),
    ExtractAuthorSubject := fun _ => .ok ("a", "s"),
    GetRelays := fun _ => .ok rs,
    GetSecKey := fun _ => .ok "key",
    now := 0,
    Sign := fun e _ => .ok { e with ID := "id0", PubKey := "pk0", Sig := "sig0" },
    MarshalJSON := fun e => e.Content,
    GetID := fun e => e.ID,
    EncodeEvent := fun id rs pk => .ok (id ++ "@" ++ String.intercalate "," rs ++ "#" ++ pk),
    net := net,
    order := order }

/-- The go-nostr client refuses the empty address: `nostr.RelayConnect` on `""`
returns an error ("invalid relay URL") without dialling, for every invocation. -/
def RejectsEmptyURL (net : Nat → Net) : Prop :=
  ∀ i, ∃ err, (net i).RelayConnect "" = .error err

/-- Each entry of `relays` next to the error its `publish` invocation returns,
in slice order. -/
def outcomes (net : Nat → Net) (relays : List String) (evt : Event) :
    List (String × Option GoError) :=
  parallelMap relays fun r i => (r, publish (net i) r evt)

/-- The entry was acknowledged: its `publish` invocation returned `nil`. -/
def acked (o : String × Option GoError) : Bool := o.2.isNone

/-- The line logged for an entry, if its `publish` invocation failed. -/
def warningOf (o : String × Option GoError) : Option String :=
  o.2.map fun err => "warning: " ++ err.Error

/-! ## Lemmas on the indexed map -/

theorem mapFrom_length {α β : Type} (f : α → Nat → β) (i : Nat) (xs : List α) :
    (mapFrom f i xs).length = xs.length := by
  induction xs generalizing i with
  | nil => rfl
  | cons x xs ih => simp [mapFrom, ih]

theorem mapFrom_fst (g : String → Nat → Option GoError) (i : Nat) (rs : List String) :
    (mapFrom (fun r j => (r, g r j)) i rs).map Prod.fst = rs := by
  induction rs generalizing i with
  | nil => rfl
  | cons r rs ih => simp [mapFrom, ih]

theorem publishOne_value (net : Nat → Net) (evt : Event) (r : String) (i : Nat) :
    (publishOne net evt r i).value = if acked (r, publish (net i) r evt) then r else "" := by
  unfold publishOne acked
  cases publish (net i) r evt <;> simp

theorem publishOne_warning (net : Nat → Net) (evt : Event) (r : String) (i : Nat) :
    (publishOne net evt r i).warning = warningOf (r, publish (net i) r evt) := by
  unfold publishOne warningOf
  cases publish (net i) r evt <;> simp [errorfW, GoError.Error]

theorem compact_values_from (net : Nat → Net) (evt : Event) (i : Nat) (rs : List String) :
    Compact ((mapFrom (publishOne net evt) i rs).map Attempt.value)
      = ((mapFrom (fun r j => (r, publish (net j) r evt)) i rs).filter
          fun o => acked o && o.1 != "").map Prod.fst := by
  induction rs generalizing i with
  | nil => rfl
  | cons r rs ih =>
    have ih2 := ih (i + 1)
    unfold Compact at ih2 ⊢
    simp only [mapFrom, List.map_cons, List.filter_cons, publishOne_value]
    by_cases ha : acked (r, publish (net i) r evt) = true
    · by_cases hr : r = ""
      · simp [ha, hr, ih2]
      · simp [ha, hr, ih2]
    · simp [ha, ih2]

theorem warnings_from (net : Nat → Net) (evt : Event) (i : Nat) (rs : List String) :
    (mapFrom (publishOne net evt) i rs).filterMap Attempt.warning
      = (mapFrom (fun r j => (r, publish (net j) r evt)) i rs).filterMap warningOf := by
  induction rs generalizing i with
  | nil => rfl
  | cons r rs ih =>
    simp only [mapFrom, List.filterMap_cons, publishOne_warning, ih]

theorem range_filterMap_get? {α β : Type} (f : α → Option β) (l : List α) :
    (List.range l.length).filterMap (fun i => (l.get? i).bind f) = l.filterMap f := by
  induction l with
  | nil => rfl
  | cons x xs ih =>
    rw [List.length_cons, List.range_succ_eq_map, List.filterMap_cons]
    simp only [List.get?_cons_zero, Option.some_bind, List.filterMap_map]
    have : ((fun i => ((x :: xs).get? i).bind f) ∘ Nat.succ) = fun i => (xs.get? i).bind f := by
      funext i; simp
    rw [this, ih, List.filterMap_cons]

/-! ## Facts about publishAll -/

theorem publishAll_eq (net : Nat → Net) (relays : List String) (evt : Event) :
    publishAll net relays evt
      = ((outcomes net relays evt).filter fun o => acked o && o.1 != "").map Prod.fst :=
  compact_values_from net evt 0 relays

theorem outcomes_fst (net : Nat → Net) (relays : List String) (evt : Event) :
    (outcomes net relays evt).map Prod.fst = relays :=
  mapFrom_fst _ 0 relays

theorem outcomes_length (net : Nat → Net) (relays : List String) (evt : Event) :
    (outcomes net relays evt).length = relays.length :=
  mapFrom_length _ 0 relays

theorem attempts_length (net : Nat → Net) (relays : List String) (evt : Event) :
    (publishAllAttempts net relays evt).length = relays.length :=
  mapFrom_length _ 0 relays

theorem attempts_warnings (net : Nat → Net) (relays : List String) (evt : Event) :
    (publishAllAttempts net relays evt).filterMap Attempt.warning
      = (outcomes net relays evt).filterMap warningOf :=
  warnings_from net evt 0 relays

theorem publishAll_sublist (net : Nat → Net) (relays : List String) (evt : Event) :
    (publishAll net relays evt).Sublist relays := by
  rw [publishAll_eq]
  conv => rhs; rw [← outcomes_fst net relays evt]
  exact (List.filter_sublist _).map _

theorem publishAll_log_perm (net : Nat → Net) (order : List Nat) (relays : List String)
    (evt : Event) (h : order.Perm (List.range relays.length)) :
    (publishAllLog net order relays evt).Perm ((outcomes net relays evt).filterMap warningOf) := by
  unfold publishAllLog
  refine (h.filterMap _).trans ?_
  rw [← attempts_length net relays evt, range_filterMap_get?, attempts_warnings]

/-- With every step before it succeeding, a real run of `send` is its publishing part. -/
theorem send_of_reaches (env : Env) (hash : String) (relays : List String) (sec : String)
    (rs : List String) (evt : Event) (h : ReachesPublish env hash relays sec rs evt) :
    send env hash relays sec false = sendPublish env rs evt := by
  obtain ⟨patch, author, subject, key, h1, h2, h3, h4, h5⟩ := h
  simp [send, h1, h2, h3, h4, h5]

theorem sampleEnv_reaches (rs : List String) (net : Nat → Net) (order : List Nat) :
    ReachesPublish (sampleEnv rs net order) "HEAD" [] "" rs sampleEvent :=
  ⟨"patch", "a", "s", "key", rfl, rfl, rfl, rfl, rfl⟩

theorem sendPublish_of_empty (env : Env) (rs : List String) (evt : Event)
    (h : publishAll env.net rs evt = []) :
    sendPublish env rs evt =
      { out := "", err := some errNoRelays, stdout := [],
        log := publishAllLog env.net env.order rs evt,
        attempts := publishAllAttempts env.net rs evt, encodeCalls := [] } := by
  simp [sendPublish, h]

theorem sendPublish_of_nonempty (env : Env) (rs : List String) (evt : Event)
    (h : publishAll env.net rs evt ≠ []) :
    (sendPublish env rs evt).err ≠ some errNoRelays ∧
    (sendPublish env rs evt).encodeCalls =
      [{ id := env.GetID evt, relays := publishAll env.net rs evt, author := evt.PubKey }] := by
  have hl : (publishAll env.net rs evt).length ≠ 0 := by
    simpa [List.length_eq_zero] using h
  unfold sendPublish
  simp only [hl, if_false]
  cases env.EncodeEvent (env.GetID evt) (publishAll env.net rs evt) evt.PubKey <;>
    simp [errorfW, errNoRelays]

theorem publishAll_of_all_failed (net : Nat → Net) (rs : List String) (evt : Event)
    (hall : ∀ o ∈ outcomes net rs evt, o.2 ≠ none) : publishAll net rs evt = [] := by
  rw [publishAll_eq, List.map_eq_nil_iff, List.filter_eq_nil_iff]
  intro o ho
  have := hall o ho
  cases h : o.2 <;> simp_all [acked]

/-! ## The claims -/

theorem outcome_of_mem_from (net : Nat → Net) (evt : Event) (i : Nat) (rs : List String)
    (o : String × Option GoError)
    (ho : o ∈ mapFrom (fun r j => (r, publish (net j) r evt)) i rs) :
    ∃ j, o.2 = publish (net j) o.1 evt := by
  induction rs generalizing i with
  | nil => simp [mapFrom] at ho
  | cons r rs ih =>
    simp only [mapFrom, List.mem_cons] at ho
    rcases ho with h | h
    · exact ⟨i, by rw [h]⟩
    · exact ih (i + 1) h

theorem publish_empty_address (net : Net) (evt : Event)
    (h : ∃ err, net.RelayConnect "" = .error err) : publish net "" evt ≠ none := by
  obtain ⟨err, he⟩ := h
  simp [publish, he]

/-- With a client that refuses the empty address, an acknowledged entry never
has the empty address. -/
theorem acked_address_ne_empty (net : Nat → Net) (relays : List String) (evt : Event)
    (hurl : RejectsEmptyURL net) (o : String × Option GoError)
    (ho : o ∈ outcomes net relays evt) (ha : o.2 = none) : o.1 ≠ "" := by
  intro he
  obtain ⟨j, hj⟩ := outcome_of_mem_from net evt 0 relays o ho
  rw [he, ha] at hj
  exact publish_empty_address (net j) evt (hurl j) hj.symm

/-- C1: for every address list and every assignment of per-entry publish
outcomes in which exactly `K ≥ 1` entries are acknowledged (their `publish`
returns nil) and the others fail, `publishAll` returns exactly `K` members and
`send` does not take the "failed to publish to any relays" branch: it goes on
to call `nip19.EncodeEvent` with that list. The relay client is any client
that, like go-nostr, refuses the empty address. -/
theorem publishAll_counts_acknowledged (env : Env) (hash : String) (relays : List String)
    (sec : String) (rs : List String) (evt : Event) (K : Nat)
    (hreach : ReachesPublish env hash relays sec rs evt)
    (hurl : RejectsEmptyURL env.net)
    (hK : (outcomes env.net rs evt).countP acked = K) (h1 : 1 ≤ K) :
    (publishAll env.net rs evt).length = K ∧
    (send env hash relays sec false).err ≠ some errNoRelays ∧
    (send env hash relays sec false).encodeCalls =
      [{ id := env.GetID evt, relays := publishAll env.net rs evt, author := evt.PubKey }] := by
  have hlen : (publishAll env.net rs evt).length = K := by
    rw [publishAll_eq, List.length_map, ← hK, List.countP_eq_length_filter]
    congr 1
    apply List.filter_congr
    intro o ho
    by_cases ha : acked o = true
    · have hn : o.2 = none := by simpa [acked] using ha
      have := acked_address_ne_empty env.net rs evt hurl o ho hn
      simp [ha, this]
    · simp [ha]
  have hnil : publishAll env.net rs evt ≠ [] := by
    intro h
    rw [h] at hlen
    simp at hlen
    omega
  rw [send_of_reaches env hash relays sec rs evt hreach]
  exact ⟨hlen, sendPublish_of_nonempty env rs evt hnil⟩

/-- C1 (scenario): relayA and relayC acknowledged, relayB failing, gives the
success list relayA, relayC, and `send` returns a reference. -/
theorem publishAll_counts_acknowledged_scenario :
    publishAll (fun _ => netUp ["relayA", "relayC"]) ["relayA", "relayB", "relayC"] sampleEvent
      = ["relayA", "relayC"] ∧
    ((publishAll (sampleEnv ["relayA", "relayB", "relayC"]
        (fun _ => netUp ["relayA", "relayC"]) [0, 1, 2]).net
        ["relayA", "relayB", "relayC"] sampleEvent).length = 2 ∧
      (send (sampleEnv ["relayA", "relayB", "relayC"]
        (fun _ => netUp ["relayA", "relayC"]) [0, 1, 2]) "HEAD" [] "" false).err
        ≠ some errNoRelays ∧
      (send (sampleEnv ["relayA", "relayB", "relayC"]
        (fun _ => netUp ["relayA", "relayC"]) [0, 1, 2]) "HEAD" [] "" false).encodeCalls =
        [{ id := (sampleEnv ["relayA", "relayB", "relayC"]
              (fun _ => netUp ["relayA", "relayC"]) [0, 1, 2]).GetID sampleEvent,
           relays := publishAll (sampleEnv ["relayA", "relayB", "relayC"]
              (fun _ => netUp ["relayA", "relayC"]) [0, 1, 2]).net
              ["relayA", "relayB", "relayC"] sampleEvent,
           author := sampleEvent.PubKey }]) :=
  ⟨by decide,
   publishAll_counts_acknowledged
    (sampleEnv ["relayA", "relayB", "relayC"] (fun _ => netUp ["relayA", "relayC"]) [0, 1, 2])
    "HEAD" [] "" ["relayA", "relayB", "relayC"] sampleEvent 2
    (sampleEnv_reaches _ _ _) (fun _ => ⟨.leaf "connection refused", rfl⟩)
    (by decide) (by decide)⟩

/-- C2: for every address list (non-empty or not, duplicates allowed) for which
every publish call returns no error, `publishAll` returns the full input
address list, in input order. The relay client is any client that, like
go-nostr, refuses the empty address. -/
theorem publishAll_all_acknowledged (net : Nat → Net) (relays : List String) (evt : Event)
    (hurl : RejectsEmptyURL net)
    (hall : ∀ o ∈ outcomes net relays evt, o.2 = none) :
    publishAll net relays evt = relays := by
  rw [publishAll_eq]
  conv => rhs; rw [← outcomes_fst net relays evt]
  congr 1
  rw [List.filter_eq_self]
  intro o ho
  have hn := hall o ho
  have := acked_address_ne_empty net relays evt hurl o ho hn
  simp [acked, hn, this]

/-- C2 (example): three acknowledged entries, two with the same address, are
all kept in input order. -/
theorem publishAll_all_acknowledged_example :
    publishAll (fun _ => netUp ["relayA", "relayB"]) ["relayB", "relayA", "relayB"] sampleEvent
      = ["relayB", "relayA", "relayB"] :=
  publishAll_all_acknowledged (fun _ => netUp ["relayA", "relayB"])
    ["relayB", "relayA", "relayB"] sampleEvent
    (fun _ => ⟨.leaf "connection refused", rfl⟩) (by decide)

/-- C3: for every address list for which every publish call returns an error,
`publishAll` returns the empty list, and `send` (no dry run, earlier steps
succeeding) returns the error "failed to publish to any relays" with the empty
reference string and never calls `nip19.EncodeEvent`. -/
theorem send_all_failed (env : Env) (hash : String) (relays : List String) (sec : String)
    (rs : List String) (evt : Event)
    (hreach : ReachesPublish env hash relays sec rs evt)
    (hall : ∀ o ∈ outcomes env.net rs evt, o.2 ≠ none) :
    publishAll env.net rs evt = [] ∧
    (send env hash relays sec false).err = some errNoRelays ∧
    (send env hash relays sec false).out = "" ∧
    (send env hash relays sec false).encodeCalls = [] := by
  have h := publishAll_of_all_failed env.net rs evt hall
  rw [send_of_reaches env hash relays sec rs evt hreach, sendPublish_of_empty env rs evt h]
  exact ⟨h, rfl, rfl, rfl⟩

/-- C3 (example): two relays, both refusing the connection. -/
theorem send_all_failed_example :
    publishAll (sampleEnv ["relayA", "relayB"] (fun _ => netDown "connection refused") [1, 0]).net
      ["relayA", "relayB"] sampleEvent = [] ∧
    (send (sampleEnv ["relayA", "relayB"] (fun _ => netDown "connection refused") [1, 0])
      "HEAD" [] "" false).err = some errNoRelays ∧
    (send (sampleEnv ["relayA", "relayB"] (fun _ => netDown "connection refused") [1, 0])
      "HEAD" [] "" false).out = "" ∧
    (send (sampleEnv ["relayA", "relayB"] (fun _ => netDown "connection refused") [1, 0])
      "HEAD" [] "" false).encodeCalls = [] :=
  send_all_failed (sampleEnv ["relayA", "relayB"] (fun _ => netDown "connection refused") [1, 0])
    "HEAD" [] "" ["relayA", "relayB"] sampleEvent (sampleEnv_reaches _ _ _) (by decide)

/-- C4 (as stated, refuted): with an empty relay list no publish invocation is
made, and `send` returns the very error it returns when one relay was tried
and failed. -/
theorem empty_list_error_not_distinct :
    (send (sampleEnv [] (fun _ => netDown "connection refused") [])
      "HEAD" [] "" false).attempts = [] ∧
    (send (sampleEnv ["relayA"] (fun _ => netDown "connection refused") [0])
      "HEAD" [] "" false).attempts.length = 1 ∧
    (send (sampleEnv [] (fun _ => netDown "connection refused") []) "HEAD" [] "" false).err
      = (send (sampleEnv ["relayA"] (fun _ => netDown "connection refused") [0])
          "HEAD" [] "" false).err := by
  decide

/-- C4 (amended): when the relay list handed to the publishing step is empty,
no publish invocation occurs and `send` returns the empty string with the error
"failed to publish to any relays"; this is the same error value `send` returns
when a non-empty list was attempted and every publish failed. -/
theorem send_empty_relays (env : Env) (hash : String) (relays : List String) (sec : String)
    (evt : Event) (hreach : ReachesPublish env hash relays sec [] evt) :
    (send env hash relays sec false).attempts = [] ∧
    (send env hash relays sec false).out = "" ∧
    (send env hash relays sec false).err = some errNoRelays ∧
    (send env hash relays sec false).encodeCalls = [] ∧
    ∀ (env2 : Env) (hash2 : String) (relays2 : List String) (sec2 : String)
      (rs2 : List String) (evt2 : Event),
      ReachesPublish env2 hash2 relays2 sec2 rs2 evt2 →
      (∀ o ∈ outcomes env2.net rs2 evt2, o.2 ≠ none) →
      (send env2 hash2 relays2 sec2 false).err = (send env hash relays sec false).err := by
  have h : publishAll env.net [] evt = [] := rfl
  rw [send_of_reaches env hash relays sec [] evt hreach, sendPublish_of_empty env [] evt h]
  refine ⟨rfl, rfl, rfl, rfl, ?_⟩
  intro env2 hash2 relays2 sec2 rs2 evt2 hreach2 hall2
  rw [send_of_reaches env2 hash2 relays2 sec2 rs2 evt2 hreach2,
    sendPublish_of_empty env2 rs2 evt2 (publishAll_of_all_failed env2.net rs2 evt2 hall2)]

/-- C4 (example): an environment whose relay list is empty. -/
theorem send_empty_relays_example :
    (send (sampleEnv [] (fun _ => netUp []) []) "HEAD" [] "" false).attempts = [] ∧
    (send (sampleEnv [] (fun _ => netUp []) []) "HEAD" [] "" false).out = "" ∧
    (send (sampleEnv [] (fun _ => netUp []) []) "HEAD" [] "" false).err = some errNoRelays ∧
    (send (sampleEnv [] (fun _ => netUp []) []) "HEAD" [] "" false).encodeCalls = [] ∧
    ∀ (env2 : Env) (hash2 : String) (relays2 : List String) (sec2 : String)
      (rs2 : List String) (evt2 : Event),
      ReachesPublish env2 hash2 relays2 sec2 rs2 evt2 →
      (∀ o ∈ outcomes env2.net rs2 evt2, o.2 ≠ none) →
      (send env2 hash2 relays2 sec2 false).err
        = (send (sampleEnv [] (fun _ => netUp []) []) "HEAD" [] "" false).err :=
  send_empty_relays (sampleEnv [] (fun _ => netUp []) []) "HEAD" [] "" sampleEvent
    (sampleEnv_reaches _ _ _)

/-- C5 (as stated, refuted): `publish` does not look at the status. When
`conn.Publish` returns the status "sent" with a nil error (no acknowledgement
arrived), `publish` returns nil and `publishAll` counts the relay as good. -/
theorem publish_nil_without_acknowledgement :
    (netReply .PublishStatusSent none).Publish { URL := "relayA" } sampleEvent
      = (.PublishStatusSent, none) ∧
    Status.PublishStatusSent ≠ Status.PublishStatusSucceeded ∧
    publish (netReply .PublishStatusSent none) "relayA" sampleEvent = none ∧
    publishAll (fun _ => netReply .PublishStatusSent none) ["relayA"] sampleEvent
      = ["relayA"] := by
  decide

/-- C5 (amended): `publish` returns nil exactly when `nostr.RelayConnect` and
`conn.Publish` both return a nil error, whatever the status; an attempt whose
connect or publish step returns an error makes `publish` return a non-nil error
wrapping it, and `publishAll` counts that attempt as a failure (its slot holds
the empty string and a warning is logged). -/
theorem publish_nil_iff_no_error (net : Nat → Net) (i : Nat) (relay : String) (evt : Event) :
    (publish (net i) relay evt = none ↔
      ∃ conn, (net i).RelayConnect relay = .ok conn ∧ ((net i).Publish conn evt).2 = none) ∧
    (∀ err, (net i).RelayConnect relay = .error err →
      publish (net i) relay evt
        = some (errorfW ("error connecting to relay " ++ relay ++ ": ") err)) ∧
    (∀ conn err, (net i).RelayConnect relay = .ok conn →
      ((net i).Publish conn evt).2 = some err →
      publish (net i) relay evt
        = some (errorfW ("error publishing (relay=" ++ relay ++ ";status="
            ++ ((net i).Publish conn evt).1.String ++ "): ") err)) ∧
    (publish (net i) relay evt ≠ none →
      (publishOne net evt relay i).value = "" ∧
      (publishOne net evt relay i).warning
        = (publish (net i) relay evt).map fun err => "warning: " ++ err.Error) := by
  refine ⟨?_, ?_, ?_, ?_⟩
  · unfold publish
    cases hc : (net i).RelayConnect relay with
    | error err => simp
    | ok conn =>
      rcases hp : (net i).Publish conn evt with ⟨status, _ | err⟩ <;> simp [hp]
  · intro err hc
    simp [publish, hc]
  · intro conn err hc hp
    rcases hq : (net i).Publish conn evt with ⟨status, _ | e⟩
    · rw [hq] at hp; simp at hp
    · rw [hq] at hp
      simp only [Option.some.injEq] at hp
      simp [publish, hc, hq, hp]
  · intro hne
    rw [publishOne_value, publishOne_warning]
    cases hp : publish (net i) relay evt with
    | none => exact absurd hp hne
    | some err => simp [acked, warningOf]

/-- C6 (as stated, refuted): when the connect succeeds, `publish` opens one
connection and closes none before it returns. -/
theorem publish_leaves_connection_open :
    publish (netUp ["relayA"]) "relayA" sampleEvent = none ∧
    opens (publishEffects (netUp ["relayA"]) "relayA" sampleEvent) = 1 ∧
    closes (publishEffects (netUp ["relayA"]) "relayA" sampleEvent) = 0 := by
  decide

/-- C6 (amended): `publish` opens exactly one connection when
`nostr.RelayConnect` succeeds and none when it fails, and it makes no `Close`
call on any exit path; the one release it performs, last on every path, is the
deferred `cancel()` of the connect context. -/
theorem publish_opens_one_closes_none (net : Net) (relay : String) (evt : Event) :
    closes (publishEffects net relay evt) = 0 ∧
    (publishEffects net relay evt).getLast? = some .cancelled ∧
    (∀ conn, net.RelayConnect relay = .ok conn →
      publishEffects net relay evt = [.opened conn, .published conn, .cancelled] ∧
      opens (publishEffects net relay evt) = 1) ∧
    (∀ err, net.RelayConnect relay = .error err →
      publishEffects net relay evt = [.cancelled] ∧
      opens (publishEffects net relay evt) = 0) := by
  unfold publishEffects
  cases hc : net.RelayConnect relay with
  | error err => simp [closes, opens]
  | ok conn => simp [closes, opens]

/-- C7 (as stated, refuted): two runs whose only relay fails for different
reasons return the same error from `send`. -/
theorem send_error_same_for_all_reasons :
    publish (netDown "connection refused") "relayA" sampleEvent
      ≠ publish (netDown "i/o timeout") "relayA" sampleEvent ∧
    (send (sampleEnv ["relayA"] (fun _ => netDown "connection refused") [0])
      "HEAD" [] "" false).err
      = (send (sampleEnv ["relayA"] (fun _ => netDown "i/o timeout") [0])
          "HEAD" [] "" false).err := by
  decide

/-- C7 (amended): for every address list for which every publish call fails,
the error returned by `send` is the fixed error "failed to publish to any
relays", which wraps no other error and is the same for all failure reasons;
the per-endpoint reasons are carried only by the warnings handed to the log. -/
theorem send_error_fixed (env : Env) (hash : String) (relays : List String) (sec : String)
    (rs : List String) (evt : Event)
    (hreach : ReachesPublish env hash relays sec rs evt)
    (hall : ∀ o ∈ outcomes env.net rs evt, o.2 ≠ none) :
    (send env hash relays sec false).err = some (.leaf "failed to publish to any relays") ∧
    (GoError.leaf "failed to publish to any relays").chain
      = [.leaf "failed to publish to any relays"] ∧
    (send env hash relays sec false).attempts.filterMap Attempt.warning
      = (outcomes env.net rs evt).filterMap warningOf := by
  have h := publishAll_of_all_failed env.net rs evt hall
  rw [send_of_reaches env hash relays sec rs evt hreach, sendPublish_of_empty env rs evt h]
  exact ⟨rfl, rfl, attempts_warnings env.net rs evt⟩

/-- C7 (example): one relay timing out. -/
theorem send_error_fixed_example :
    (send (sampleEnv ["relayA"] (fun _ => netDown "i/o timeout") [0]) "HEAD" [] "" false).err
      = some (.leaf "failed to publish to any relays") ∧
    (GoError.leaf "failed to publish to any relays").chain
      = [.leaf "failed to publish to any relays"] ∧
    (send (sampleEnv ["relayA"] (fun _ => netDown "i/o timeout") [0])
      "HEAD" [] "" false).attempts.filterMap Attempt.warning
      = (outcomes (sampleEnv ["relayA"] (fun _ => netDown "i/o timeout") [0]).net
          ["relayA"] sampleEvent).filterMap warningOf :=
  send_error_fixed (sampleEnv ["relayA"] (fun _ => netDown "i/o timeout") [0])
    "HEAD" [] "" ["relayA"] sampleEvent (sampleEnv_reaches _ _ _) (by decide)

/-- C8: for every address list and every assignment of publish outcomes, the
list `publishAll` returns is a subsequence of the input list (members are input
addresses, in the input's relative order), and `send` hands exactly this list
to `nip19.EncodeEvent` whenever it is non-empty. -/
theorem publishAll_subsequence (env : Env) (hash : String) (relays : List String)
    (sec : String) (rs : List String) (evt : Event)
    (hreach : ReachesPublish env hash relays sec rs evt) :
    (publishAll env.net rs evt).Sublist rs ∧
    (send env hash relays sec false).encodeCalls =
      if publishAll env.net rs evt = [] then []
      else [{ id := env.GetID evt, relays := publishAll env.net rs evt,
              author := evt.PubKey }] := by
  refine ⟨publishAll_sublist env.net rs evt, ?_⟩
  rw [send_of_reaches env hash relays sec rs evt hreach]
  by_cases h : publishAll env.net rs evt = []
  · rw [sendPublish_of_empty env rs evt h, if_pos h]
  · rw [if_neg h]
    exact (sendPublish_of_nonempty env rs evt h).2

/-- C8 (example): the middle relay of three fails. -/
theorem publishAll_subsequence_example :
    (send (sampleEnv ["relayC", "relayB", "relayA"] (fun _ => netUp ["relayA", "relayC"])
      [2, 1, 0]) "HEAD" [] "" false).encodeCalls
      = [{ id := "id0", relays := ["relayC", "relayA"], author := "pk0" }] ∧
    ((publishAll (sampleEnv ["relayC", "relayB", "relayA"]
        (fun _ => netUp ["relayA", "relayC"]) [2, 1, 0]).net
        ["relayC", "relayB", "relayA"] sampleEvent).Sublist ["relayC", "relayB", "relayA"] ∧
      (send (sampleEnv ["relayC", "relayB", "relayA"] (fun _ => netUp ["relayA", "relayC"])
        [2, 1, 0]) "HEAD" [] "" false).encodeCalls =
        if publishAll (sampleEnv ["relayC", "relayB", "relayA"]
            (fun _ => netUp ["relayA", "relayC"]) [2, 1, 0]).net
            ["relayC", "relayB", "relayA"] sampleEvent = [] then []
        else [{ id := (sampleEnv ["relayC", "relayB", "relayA"]
                  (fun _ => netUp ["relayA", "relayC"]) [2, 1, 0]).GetID sampleEvent,
                relays := publishAll (sampleEnv ["relayC", "relayB", "relayA"]
                  (fun _ => netUp ["relayA", "relayC"]) [2, 1, 0]).net
                  ["relayC", "relayB", "relayA"] sampleEvent,
                author := sampleEvent.PubKey }]) :=
  ⟨by decide,
   publishAll_subsequence
    (sampleEnv ["relayC", "relayB", "relayA"] (fun _ => netUp ["relayA", "relayC"]) [2, 1, 0])
    "HEAD" [] "" ["relayC", "relayB", "relayA"] sampleEvent (sampleEnv_reaches _ _ _)⟩

/-- C9: for every content, author and subject (empty ones included) and every
configured hashtag, the event built by `mkEvent` has the tags author, subject
when the hashtag is empty, and author, subject, t (the hashtag, last) when it is
not; its content is the payload unchanged and its kind is 19691228. -/
theorem mkEvent_tags (env : Env) (content author subject : String) :
    ((env.gitRun ["config", "nostr.hashtag"]).1 = "" →
      (mkEvent env content author subject).Tags
        = [["author", author], ["subject", subject]]) ∧
    ((env.gitRun ["config", "nostr.hashtag"]).1 ≠ "" →
      (mkEvent env content author subject).Tags
        = [["author", author], ["subject", subject],
           ["t", (env.gitRun ["config", "nostr.hashtag"]).1]]) ∧
    (mkEvent env content author subject).Content = content ∧
    (mkEvent env content author subject).Kind = 19691228 := by
  refine ⟨fun h => ?_, fun h => ?_, rfl, rfl⟩
  · simp [mkEvent, h]
  · simp [mkEvent, h]

/-- C10: for every address list, every assignment of publish outcomes and every
order in which the goroutines reach the log, `publishAll` logs exactly one
warning for each entry whose publish call returned an error (the text
"warning: " followed by that error's text) and none for the others; every entry
is attempted, and the returned list is made of the acknowledged entries
whatever the other entries did. -/
theorem publishAll_one_warning_per_failure (net : Nat → Net) (order : List Nat)
    (relays : List String) (evt : Event)
    (horder : order.Perm (List.range relays.length)) :
    (publishAllLog net order relays evt).Perm
      ((outcomes net relays evt).filterMap warningOf) ∧
    (publishAllLog net order relays evt).length
      = (outcomes net relays evt).countP (fun o => !acked o) ∧
    (∀ r err, (r, some err) ∈ outcomes net relays evt →
      ("warning: " ++ err.Error) ∈ publishAllLog net order relays evt) ∧
    (publishAllAttempts net relays evt).length = relays.length ∧
    publishAll net relays evt
      = ((outcomes net relays evt).filter fun o => acked o && o.1 != "").map Prod.fst := by
  have hperm := publishAll_log_perm net order relays evt horder
  refine ⟨hperm, ?_, ?_, attempts_length net relays evt, publishAll_eq net relays evt⟩
  · rw [hperm.length_eq]
    generalize outcomes net relays evt = os
    induction os with
    | nil => rfl
    | cons o os ih =>
      rcases o with ⟨r, _ | err⟩
      · simp [warningOf, acked, ih]
      · simp [warningOf, acked, ih]
  · intro r err hmem
    rw [hperm.mem_iff, List.mem_filterMap]
    exact ⟨(r, some err), hmem, rfl⟩

/-- C10 (scenario): relayA and relayC acknowledged, relayB failing, with the
goroutines reaching the log in the order 2, 0, 1: one warning, for relayB. -/
theorem publishAll_one_warning_scenario :
    publishAllLog (fun _ => netUp ["relayA", "relayC"]) [2, 0, 1]
      ["relayA", "relayB", "relayC"] sampleEvent
      = ["warning: error connecting to relay relayB: connection refused"] ∧
    ((publishAllLog (fun _ => netUp ["relayA", "relayC"]) [2, 0, 1]
        ["relayA", "relayB", "relayC"] sampleEvent).Perm
        ((outcomes (fun _ => netUp ["relayA", "relayC"])
          ["relayA", "relayB", "relayC"] sampleEvent).filterMap warningOf) ∧
      (publishAllLog (fun _ => netUp ["relayA", "relayC"]) [2, 0, 1]
        ["relayA", "relayB", "relayC"] sampleEvent).length
        = (outcomes (fun _ => netUp ["relayA", "relayC"])
            ["relayA", "relayB", "relayC"] sampleEvent).countP (fun o => !acked o) ∧
      (∀ r err, (r, some err) ∈ outcomes (fun _ => netUp ["relayA", "relayC"])
          ["relayA", "relayB", "relayC"] sampleEvent →
        ("warning: " ++ err.Error) ∈ publishAllLog (fun _ => netUp ["relayA", "relayC"])
          [2, 0, 1] ["relayA", "relayB", "relayC"] sampleEvent) ∧
      (publishAllAttempts (fun _ => netUp ["relayA", "relayC"])
        ["relayA", "relayB", "relayC"] sampleEvent).length
        = ["relayA", "relayB", "relayC"].length ∧
      publishAll (fun _ => netUp ["relayA", "relayC"]) ["relayA", "relayB", "relayC"] sampleEvent
        = ((outcomes (fun _ => netUp ["relayA", "relayC"])
            ["relayA", "relayB", "relayC"] sampleEvent).filter
            fun o => acked o && o.1 != "").map Prod.fst) :=
  ⟨by decide,
   publishAll_one_warning_per_failure (fun _ => netUp ["relayA", "relayC"]) [2, 0, 1]
    ["relayA", "relayB", "relayC"] sampleEvent (by decide)⟩

end GitSendNostr
